import Mathlib

/-!
Shallow embedding of the notification pipeline of
go-telegram-notifications-bot: the delivery ledger (internal/db.go), the
Telegram sender (internal/utils.go), and the feed scheduler with its poll
loop and retention sweep (internal/scheduler.go).

Timestamps are modelled as `Int` seconds; `time.Time.AddDate(0, 0, -d)`
becomes subtraction of `d * 86400`. Message texts are modelled as
`List Char`; Go indexes bytes, which coincides with characters on the
ASCII inputs used here. Database rows are a `List` in insertion order;
the `guid TEXT UNIQUE` column constraint of `createTables` together with
`INSERT OR IGNORE` makes `SaveFeedItem` a guid-keyed insert-or-ignore.
-/

/-- One configured feed, mirroring the Go struct `Feed` (internal/models.go). -/
structure Feed where
  FeedUrl : String
  FeedFetchIntervalMinutes : Int
  FeedRetentionDays : Int
  TelegramApiToken : String
  TelegramChatId : Int
  TelegramMessageThreadId : Int
  TelegramTemplate : String
deriving DecidableEq

/-- A delivered item as passed to `SaveFeedItem`; mirrors the Go struct
`FeedItem` (fields as used in internal/db.go and internal/scheduler.go:
GUID, Title, Description, Link, PublishedAt, FeedURL). -/
structure FeedItem where
  GUID : String
  Title : String
  Description : String
  Link : String
  PublishedAt : Int
  FeedURL : String
deriving DecidableEq

/-- One row of the `feed_items` table created by `createTables`
(internal/db.go): columns guid, title, description, link, published_at,
created_at (DEFAULT CURRENT_TIMESTAMP), feed_url. The `id` autoincrement
column is omitted: no query reads it. -/
structure FeedItemRow where
  guid : String
  title : String
  description : String
  link : String
  published_at : Int
  created_at : Int
  feed_url : String
deriving DecidableEq

/-- `SaveFeedItem` (internal/db.go): `INSERT OR IGNORE INTO feed_items`.
The table declares `guid TEXT UNIQUE NOT NULL`, so the insert is ignored
exactly when some existing row has the same guid, regardless of feed_url.
`created_at` takes the store clock `now` (DEFAULT CURRENT_TIMESTAMP). -/
def SaveFeedItem (db : List FeedItemRow) (item : FeedItem) (now : Int) : List FeedItemRow :=
  if db.any (fun r => r.guid == item.GUID) then db
  else db ++ [⟨item.GUID, item.Title, item.Description, item.Link, item.PublishedAt, now, item.FeedURL⟩]

/-- `IsFeedItemPosted` (internal/db.go):
`SELECT COUNT(*) FROM feed_items WHERE guid = ? AND feed_url = ?` and
return `count > 0`. The lookup is keyed on the (guid, feed_url) pair. -/
def IsFeedItemPosted (db : List FeedItemRow) (guid feedURL : String) : Bool :=
  ((db.filter (fun r => r.guid == guid && r.feed_url == feedURL)).length) != 0

/-- `CleanupOldItems` (internal/db.go): `DELETE FROM feed_items WHERE
created_at < ?` with threshold `now.AddDate(0, 0, -retentionDays)`. The
delete is not filtered by feed_url. Returns the surviving rows and the
affected-row count (which the Go code logs; its return value carries only
the error). -/
def CleanupOldItems (db : List FeedItemRow) (retentionDays : Int) (now : Int) :
    List FeedItemRow × Nat :=
  let thresholdDate := now - retentionDays * 86400
  (db.filter (fun r => !(decide (r.created_at < thresholdDate))),
   (db.filter (fun r => decide (r.created_at < thresholdDate))).length)

/-- `runCleanup` (internal/scheduler.go): for each configured feed with
`FeedRetentionDays > 0`, invoke `CleanupOldItems` with that feed's
retention; feeds with retention 0 (or negative) are skipped. -/
def runCleanup (feeds : List Feed) (db : List FeedItemRow) (now : Int) : List FeedItemRow :=
  feeds.foldl
    (fun d f => if f.FeedRetentionDays > 0 then (CleanupOldItems d f.FeedRetentionDays now).1 else d)
    db

/-- A ledger entry for guid "g" recorded under source "s1". -/
def itemGS1 : FeedItem := ⟨"g", "t1", "d1", "l1", 0, "s1"⟩

/-- The same guid "g" delivered for a different source "s2". -/
def itemGS2 : FeedItem := ⟨"g", "t2", "d2", "l2", 0, "s2"⟩

/-- Claim C1: the spec says the (globalID, sourceURL) pair is the sole
de-duplication key, so recording (g, s1) and then (g, s2) should leave two
distinct entries. The code's `feed_items` table declares `guid TEXT
UNIQUE`, so the second insert is silently ignored and only one entry
remains; recording the identical (g, s) twice also leaves one entry and is
not an error. Evaluating `SaveFeedItem` at that failing input. -/
theorem c1_guid_only_unique_key :
    (SaveFeedItem (SaveFeedItem [] itemGS1 0) itemGS2 0).length = 1 ∧
    SaveFeedItem (SaveFeedItem [] itemGS1 0) itemGS1 0 = SaveFeedItem [] itemGS1 0 := by
  constructor
  · rfl
  · rfl

/-- Source "s1" with a 10-day retention window. -/
def feedS1 : Feed := ⟨"s1", 30, 10, "tok1", 1, 0, ""⟩

/-- Source "s2" with a 100-day retention window. -/
def feedS2 : Feed := ⟨"s2", 30, 100, "tok2", 2, 0, ""⟩

/-- A ledger row of source "s2" recorded 50 days before `cleanupNow`:
well inside s2's 100-day retention window. -/
def rowS2Aged50 : FeedItemRow := ⟨"g2", "t", "d", "l", 0, 950 * 86400, "s2"⟩

/-- The sweep instant used in the C2 counter-evaluation. -/
def cleanupNow : Int := 1000 * 86400

/-- Claim C2: purge(sourceURL, retentionDays) is supposed to delete only
the given source's entries. `CleanupOldItems` takes no source argument and
deletes every row older than the threshold: during the sweep of source
"s1" (retention 10 days), the entry of source "s2" aged 50 days — inside
s2's own 100-day window — is deleted. Evaluating the purge call made for
"s1" and the whole sweep at that failing input. -/
theorem c2_cleanup_not_source_scoped :
    (CleanupOldItems [rowS2Aged50] feedS1.FeedRetentionDays cleanupNow).1 = [] ∧
    (CleanupOldItems [rowS2Aged50] feedS1.FeedRetentionDays cleanupNow).2 = 1 ∧
    runCleanup [feedS1, feedS2] [rowS2Aged50] cleanupNow = [] := by
  refine ⟨?_, ?_, ?_⟩
  · rfl
  · rfl
  · rfl

/-- The subset of a parsed `gofeed.Item` read by `fetchAndProcessFeed`
(internal/scheduler.go): GUID, Title, Description, Link and the parsed
publication time (`nil` when absent). -/
structure GofeedItem where
  GUID : String
  Title : String
  Description : String
  Link : String
  PublishedParsed : Option Int
deriving DecidableEq

/-- The conversion in `fetchAndProcessFeed` (internal/scheduler.go) from a
parsed item to the stored `FeedItem`: `FeedURL` is the polled feed's URL
and `PublishedAt` defaults to `time.Now()` when `PublishedParsed` is nil. -/
def toFeedItem (feed : Feed) (now : Int) (item : GofeedItem) : FeedItem :=
  ⟨item.GUID, item.Title, item.Description, item.Link, item.PublishedParsed.getD now, feed.FeedUrl⟩

/-- Outcome of one poll cycle: the database afterwards, the items passed
to `SendFeedItemToTelegram` in call order, and the items for which
`SaveFeedItem` was invoked, in call order. -/
structure ProcResult where
  db : List FeedItemRow
  sends : List GofeedItem
  saves : List GofeedItem
deriving DecidableEq

/-- The item loop of `fetchAndProcessFeed` (internal/scheduler.go), over
the items in their iteration order. For each item: skip when
`IsFeedItemPosted` holds for (item.GUID, feed.FeedUrl); otherwise send it
(outcome given by the sender oracle `sendOk`, abstracting
`TelegramService.SendFeedItemToTelegram`); only on send success call
`SaveFeedItem`. A send failure is logged and the loop continues. -/
def processItems (sendOk : GofeedItem → Bool) (feed : Feed) (now : Int) :
    List GofeedItem → List FeedItemRow → ProcResult
  | [], db => ⟨db, [], []⟩
  | item :: rest, db =>
    if IsFeedItemPosted db item.GUID feed.FeedUrl then
      processItems sendOk feed now rest db
    else if sendOk item then
      let r := processItems sendOk feed now rest (SaveFeedItem db (toFeedItem feed now item) now)
      ⟨r.db, item :: r.sends, item :: r.saves⟩
    else
      let r := processItems sendOk feed now rest db
      ⟨r.db, item :: r.sends, r.saves⟩

/-- `fetchAndProcessFeed` (internal/scheduler.go): the fetched items are
iterated from the last index down to 0 — i.e. in reverse of the order the
parser returned them — and driven through the item loop. -/
def fetchAndProcessFeed (sendOk : GofeedItem → Bool) (feed : Feed) (now : Int)
    (items : List GofeedItem) (db : List FeedItemRow) : ProcResult :=
  processItems sendOk feed now items.reverse db

/-- Saving an item does not change the posted-lookup of any other guid. -/
theorem isPosted_save_of_guid_ne (db : List FeedItemRow) (fi : FeedItem) (now : Int)
    (g u : String) (h : fi.GUID ≠ g) :
    IsFeedItemPosted (SaveFeedItem db fi now) g u = IsFeedItemPosted db g u := by
  unfold SaveFeedItem
  split
  · rfl
  · unfold IsFeedItemPosted
    rw [List.filter_append]
    have hrow : (([(⟨fi.GUID, fi.Title, fi.Description, fi.Link, fi.PublishedAt, now, fi.FeedURL⟩ : FeedItemRow)]).filter
        (fun r => r.guid == g && r.feed_url == u)) = [] := by
      simp only [List.filter, beq_iff_eq]
      have : (fi.GUID == g) = false := by
        simp [beq_eq_false_iff_ne, h]
      simp [this]
    rw [hrow, List.append_nil]

/-- When every incoming item is already posted for this feed, the item
loop sends nothing, saves nothing and leaves the database unchanged. -/
theorem processItems_all_posted (sendOk : GofeedItem → Bool) (feed : Feed) (now : Int)
    (items : List GofeedItem) (db : List FeedItemRow)
    (h : ∀ it ∈ items, IsFeedItemPosted db it.GUID feed.FeedUrl = true) :
    processItems sendOk feed now items db = ⟨db, [], []⟩ := by
  induction items with
  | nil => rfl
  | cons item rest ih =>
    unfold processItems
    rw [if_pos (h item (List.mem_cons_self item rest))]
    exact ih (fun it hit => h it (List.mem_cons_of_mem item hit))

/-- Record-iff-success for the item loop, at any database: the items for
which `SaveFeedItem` is invoked are exactly the sent items whose send
succeeded, and the final database is the initial one with exactly those
saves applied (so a failed send leaves the database untouched). -/
theorem processItems_record_iff_success (sendOk : GofeedItem → Bool) (feed : Feed) (now : Int) :
    ∀ (items : List GofeedItem) (db : List FeedItemRow),
      (processItems sendOk feed now items db).saves
        = (processItems sendOk feed now items db).sends.filter sendOk
      ∧ (processItems sendOk feed now items db).db
        = (processItems sendOk feed now items db).saves.foldl
            (fun d it => SaveFeedItem d (toFeedItem feed now it) now) db := by
  intro items
  induction items with
  | nil => exact fun db => ⟨rfl, rfl⟩
  | cons item rest ih =>
    intro db
    cases hp : IsFeedItemPosted db item.GUID feed.FeedUrl with
    | true => simpa [processItems, hp] using ih db
    | false =>
      cases hs : sendOk item with
      | true =>
        have h2 := ih (SaveFeedItem db (toFeedItem feed now item) now)
        have hstep : processItems sendOk feed now (item :: rest) db
            = ⟨(processItems sendOk feed now rest (SaveFeedItem db (toFeedItem feed now item) now)).db,
               item :: (processItems sendOk feed now rest (SaveFeedItem db (toFeedItem feed now item) now)).sends,
               item :: (processItems sendOk feed now rest (SaveFeedItem db (toFeedItem feed now item) now)).saves⟩ := by
          simp [processItems, hp, hs]
        rw [hstep]
        refine ⟨?_, ?_⟩
        · simp [List.filter_cons, hs, h2.1]
        · simp only [List.foldl_cons]
          exact h2.2
      | false =>
        have h2 := ih db
        have hstep : processItems sendOk feed now (item :: rest) db
            = ⟨(processItems sendOk feed now rest db).db,
               item :: (processItems sendOk feed now rest db).sends,
               (processItems sendOk feed now rest db).saves⟩ := by
          simp [processItems, hp, hs]
        rw [hstep]
        refine ⟨?_, ?_⟩
        · simp [List.filter_cons, hs, h2.1]
        · exact h2.2

/-- Claim C6: within one poll cycle the ledger write for an item happens
exactly when the send for that item succeeded: the saved items are the
sent items filtered by send success, and the resulting database is the
starting database with exactly those successful items recorded — so a
failed send changes nothing for its item and the loop moves on. -/
theorem c6_record_iff_send_success (sendOk : GofeedItem → Bool) (feed : Feed) (now : Int)
    (items : List GofeedItem) (db : List FeedItemRow) :
    (fetchAndProcessFeed sendOk feed now items db).saves
      = (fetchAndProcessFeed sendOk feed now items db).sends.filter sendOk
    ∧ (fetchAndProcessFeed sendOk feed now items db).db
      = (fetchAndProcessFeed sendOk feed now items db).saves.foldl
          (fun d it => SaveFeedItem d (toFeedItem feed now it) now) db :=
  processItems_record_iff_success sendOk feed now items.reverse db

/-- Claim C8: a poll in which every fetched item is already recorded for
this feed performs zero sends and zero saves and returns the database
unchanged. -/
theorem c8_poll_idempotent_when_all_posted (sendOk : GofeedItem → Bool) (feed : Feed)
    (now : Int) (items : List GofeedItem) (db : List FeedItemRow)
    (h : ∀ it ∈ items, IsFeedItemPosted db it.GUID feed.FeedUrl = true) :
    fetchAndProcessFeed sendOk feed now items db = ⟨db, [], []⟩ :=
  processItems_all_posted sendOk feed now items.reverse db
    (fun it hit => h it (List.mem_reverse.mp hit))

/-- The already-recorded item "g" of source "s1" as the parser returns it. -/
def itemGParsed : GofeedItem := ⟨"g", "t", "d", "l", some 3⟩

/-- A ledger holding guid "g" recorded under source "s1". -/
def dbWithGS1 : List FeedItemRow := [⟨"g", "t", "d", "l", 3, 5, "s1"⟩]

/-- Witness for C8: polling source "s1" when its only fetched item is
already recorded sends nothing, saves nothing and leaves the ledger as it
was. -/
theorem c8_poll_idempotent_when_all_posted_witness :
    fetchAndProcessFeed (fun _ => true) feedS1 9 [itemGParsed] dbWithGS1
      = ⟨dbWithGS1, [], []⟩ :=
  c8_poll_idempotent_when_all_posted (fun _ => true) feedS1 9 [itemGParsed] dbWithGS1
    (by decide)

/-- With pairwise-distinct guids, all items unposted and every send
succeeding, the item loop sends exactly the items it was given, in the
order it was given them. -/
theorem processItems_sends_in_order (sendOk : GofeedItem → Bool) (feed : Feed) (now : Int) :
    ∀ (items : List GofeedItem) (db : List FeedItemRow),
      items.Pairwise (fun a b => a.GUID ≠ b.GUID) →
      (∀ it ∈ items, IsFeedItemPosted db it.GUID feed.FeedUrl = false) →
      (∀ it ∈ items, sendOk it = true) →
      (processItems sendOk feed now items db).sends = items := by
  intro items
  induction items with
  | nil => exact fun db _ _ _ => rfl
  | cons item rest ih =>
    intro db hdist hnew hok
    have hp : IsFeedItemPosted db item.GUID feed.FeedUrl = false :=
      hnew item (List.mem_cons_self item rest)
    have hs : sendOk item = true := hok item (List.mem_cons_self item rest)
    rw [List.pairwise_cons] at hdist
    have hnew2 : ∀ it ∈ rest,
        IsFeedItemPosted (SaveFeedItem db (toFeedItem feed now item) now) it.GUID feed.FeedUrl
          = false := by
      intro it hit
      rw [isPosted_save_of_guid_ne db (toFeedItem feed now item) now it.GUID feed.FeedUrl
        (hdist.1 it hit)]
      exact hnew it (List.mem_cons_of_mem item hit)
    have hok2 : ∀ it ∈ rest, sendOk it = true :=
      fun it hit => hok it (List.mem_cons_of_mem item hit)
    simp [processItems, hp, hs,
      ih (SaveFeedItem db (toFeedItem feed now item) now) hdist.2 hnew2 hok2]

/-- Claim C9: given a fetched list delivered newest-first by the parser,
with distinct guids, none recorded yet and every send succeeding, the
sender observes the items in the exact reverse of the parser's order —
oldest-published first. -/
theorem c9_sends_in_reverse_parser_order (sendOk : GofeedItem → Bool) (feed : Feed)
    (now : Int) (items : List GofeedItem) (db : List FeedItemRow)
    (hdist : items.Pairwise (fun a b => a.GUID ≠ b.GUID))
    (hnew : ∀ it ∈ items, IsFeedItemPosted db it.GUID feed.FeedUrl = false)
    (hok : ∀ it ∈ items, sendOk it = true) :
    (fetchAndProcessFeed sendOk feed now items db).sends = items.reverse := by
  unfold fetchAndProcessFeed
  refine processItems_sends_in_order sendOk feed now items.reverse db ?_ ?_ ?_
  · exact List.pairwise_reverse.mpr (hdist.imp fun h => h.symm)
  · exact fun it hit => hnew it (List.mem_reverse.mp hit)
  · exact fun it hit => hok it (List.mem_reverse.mp hit)

/-- Item published at T1 = 1 (the oldest). -/
def itemT1 : GofeedItem := ⟨"g1", "X", "d1", "l1", some 1⟩

/-- Item published at T2 = 2. -/
def itemT2 : GofeedItem := ⟨"g2", "Y", "d2", "l2", some 2⟩

/-- Item published at T3 = 3 (the newest). -/
def itemT3 : GofeedItem := ⟨"g3", "Z", "d3", "l3", some 3⟩

/-- Witness for C9: the parser returns [T3, T2, T1] newest-first; the
sender observes T1, T2, T3. -/
theorem c9_sends_in_reverse_parser_order_witness :
    (fetchAndProcessFeed (fun _ => true) feedS1 9 [itemT3, itemT2, itemT1] []).sends
      = [itemT1, itemT2, itemT3] :=
  c9_sends_in_reverse_parser_order (fun _ => true) feedS1 9 [itemT3, itemT2, itemT1] []
    (by decide) (by decide) (fun it _ => rfl)

/-- Claim C5: when some source s1 already holds a ledger entry with guid
g, a poll of a different feed whose fetched item carries the same guid g
does not skip it (the has-lookup is pair-keyed and finds nothing for this
feed), sends it, and the subsequent `SaveFeedItem` is silently swallowed
by the guid-only unique constraint: the database is unchanged, no entry
for (g, this feed) appears, and an identical second poll sends the item
again. -/
theorem c5_cross_source_guid_resent (db : List FeedItemRow) (g s1 : String) (feed : Feed)
    (item : GofeedItem) (sendOk : GofeedItem → Bool) (now : Int)
    (hg : item.GUID = g)
    (h1 : db.any (fun r => r.guid == g && r.feed_url == s1) = true)
    (h2 : IsFeedItemPosted db g feed.FeedUrl = false)
    (h3 : sendOk item = true) :
    fetchAndProcessFeed sendOk feed now [item] db = ⟨db, [item], [item]⟩ ∧
    IsFeedItemPosted (fetchAndProcessFeed sendOk feed now [item] db).db g feed.FeedUrl = false ∧
    fetchAndProcessFeed sendOk feed now [item]
      (fetchAndProcessFeed sendOk feed now [item] db).db = ⟨db, [item], [item]⟩ := by
  subst hg
  have hany : db.any (fun r => r.guid == item.GUID) = true := by
    rcases List.any_eq_true.mp h1 with ⟨r, hr, hpair⟩
    simp only [Bool.and_eq_true] at hpair
    exact List.any_eq_true.mpr ⟨r, hr, hpair.1⟩
  have hany2 : (db.any fun r => r.guid == (toFeedItem feed now item).GUID) = true := hany
  have hsave : SaveFeedItem db (toFeedItem feed now item) now = db := by
    unfold SaveFeedItem
    rw [if_pos hany2]
  have hone : fetchAndProcessFeed sendOk feed now [item] db = ⟨db, [item], [item]⟩ := by
    unfold fetchAndProcessFeed
    simp [processItems, h2, h3, hsave]
  refine ⟨hone, ?_, ?_⟩
  · rw [hone]
    exact h2
  · rw [hone]
    exact hone

/-- Witness for C5: the ledger holds guid "g" under source "s1"; polling
source "s2" with a fetched item of the same guid sends it, records
nothing, and an identical second poll would send it again. -/
theorem c5_cross_source_guid_resent_witness :
    fetchAndProcessFeed (fun _ => true) feedS2 9 [itemGParsed] dbWithGS1
      = ⟨dbWithGS1, [itemGParsed], [itemGParsed]⟩ ∧
    IsFeedItemPosted dbWithGS1 "g" feedS2.FeedUrl = false := by
  have h := c5_cross_source_guid_resent dbWithGS1 "g" "s1" feedS2 itemGParsed
    (fun _ => true) 9 rfl (by decide) (by decide) rfl
  exact ⟨h.1, by decide⟩

/-- Left-to-right scan underlying `strings.LastIndex(truncated, ". ")`:
walk the text keeping the index of the last position where ". " starts. -/
def lastDotSpaceGo : List Char → Nat → Int → Int
  | [], _, acc => acc
  | [_], _, acc => acc
  | c1 :: c2 :: rest, i, acc =>
    if c1 == '.' && c2 == ' ' then lastDotSpaceGo (c2 :: rest) (i + 1) (Int.ofNat i)
    else lastDotSpaceGo (c2 :: rest) (i + 1) acc

/-- `strings.LastIndex(s, ". ")` (used in internal/utils.go): the index of
the last occurrence of ". ", or -1 when there is none. -/
def lastIndexDotSpace (s : List Char) : Int :=
  lastDotSpaceGo s 0 (-1)

/-- The truncation block of `SendTelegramMessage` (internal/utils.go):
when the text exceeds maxMessageLength = 4096, take the first 4096
characters; if the last ". " inside them starts after maxMessageLength/2 =
2048, keep up to and including that period and append "...", otherwise
append "..." to the whole 4096-character prefix. -/
def truncateMessage (text : List Char) : List Char :=
  if text.length > 4096 then
    if lastIndexDotSpace (text.take 4096) > 4096 / 2 then
      (text.take 4096).take ((lastIndexDotSpace (text.take 4096)).toNat + 1) ++ ['.', '.', '.']
    else text.take 4096 ++ ['.', '.', '.']
  else text

/-- Outcome of one HTTP attempt of the sender: `http.Post` either fails at
the transport level or yields a response with a status code, a
decodable-or-not body, and the Telegram `ok` flag. -/
inductive AttemptOutcome where
  | transportError
  | response (status : Nat) (decodeOk : Bool) (apiOk : Bool)
deriving DecidableEq

/-- The error classes `SendTelegramMessage` can return, in source order of
its checks. -/
inductive SendResult where
  | ok
  | transportFailed
  | badStatus (status : Nat)
  | decodeFailed
  | apiError
deriving DecidableEq

/-- What one call of `SendTelegramMessage` did: the text it transmitted,
how many network attempts it made, the waits (in seconds) it inserted
between attempts, and its result. -/
structure SendTrace where
  transmitted : List Char
  attemptsMade : Nat
  delays : List Nat
  result : SendResult
deriving DecidableEq

/-- `SendTelegramMessage` (internal/utils.go): truncate the text, marshal
it (marshalling a TelegramMessage of scalars cannot fail), issue a single
`http.Post` — attempt 0 of the oracle — and return the first error among
transport failure, non-200 status, undecodable body and `ok = false`, or
success. The function body contains no loop and no sleep: it makes exactly
one attempt and inserts no delay. -/
def SendTelegramMessage (text : List Char) (attempt : Nat → AttemptOutcome) : SendTrace :=
  { transmitted := truncateMessage text
    attemptsMade := 1
    delays := []
    result :=
      match attempt 0 with
      | .transportError => .transportFailed
      | .response status decodeOk apiOk =>
        if status != 200 then .badStatus status
        else if !decodeOk then .decodeFailed
        else if !apiOk then .apiError
        else .ok }

/-- An attempt oracle whose first attempt fails at the transport level and
whose every later attempt would succeed. -/
def failThenOk : Nat → AttemptOutcome :=
  fun n => if n == 0 then .transportError else .response 200 true true

/-- Claim C3: the spec prescribes up to 5 total attempts separated by
fixed 30-second delays, returning ExhaustedRetries only after all 5 fail.
Evaluating the sender at an oracle whose first attempt fails retryably and
whose second attempt would succeed: the code makes exactly one attempt,
waits for nothing, and surfaces the transport error immediately — there is
no retry loop in `SendTelegramMessage`. -/
theorem c3_single_attempt_no_retry :
    (SendTelegramMessage ['h', 'i'] failThenOk).attemptsMade = 1 ∧
    (SendTelegramMessage ['h', 'i'] failThenOk).delays = [] ∧
    (SendTelegramMessage ['h', 'i'] failThenOk).result = SendResult.transportFailed := by
  refine ⟨rfl, rfl, rfl⟩

/-- A text all of whose characters differ from '.' contains no ". ",
wherever the scan starts. -/
theorem lastDotSpaceGo_of_no_dot :
    ∀ (l : List Char), (∀ c ∈ l, c ≠ '.') → ∀ (i : Nat) (acc : Int),
      lastDotSpaceGo l i acc = acc := by
  intro l
  induction l with
  | nil => intro _ i acc; rfl
  | cons x xs ih =>
    intro h i acc
    cases xs with
    | nil => rfl
    | cons y ys =>
      have hx : (x == '.') = false := by
        simpa [beq_eq_false_iff_ne] using h x (List.mem_cons_self x (y :: ys))
      show (if x == '.' && y == ' ' then lastDotSpaceGo (y :: ys) (i + 1) (Int.ofNat i)
            else lastDotSpaceGo (y :: ys) (i + 1) acc) = acc
      rw [hx, Bool.false_and, if_neg (by simp)]
      exact ih (fun c hc => h c (List.mem_cons_of_mem x hc)) (i + 1) acc

/-- A run of 'a' characters has no sentence boundary. -/
theorem lastIndexDotSpace_replicate_a (n : Nat) :
    lastIndexDotSpace (List.replicate n 'a') = -1 := by
  unfold lastIndexDotSpace
  apply lastDotSpaceGo_of_no_dot
  intro c hc
  rw [List.eq_of_mem_replicate hc]
  decide

/-- Truncating 4097 'a' characters yields the 4096-character prefix with
"..." appended: 4099 characters. -/
theorem truncateMessage_replicate_a :
    truncateMessage (List.replicate 4097 'a') = List.replicate 4096 'a' ++ ['.', '.', '.'] := by
  have htake : (List.replicate 4097 'a').take 4096 = List.replicate 4096 'a' := by
    rw [List.take_replicate]
    norm_num
  unfold truncateMessage
  rw [List.length_replicate, if_pos (by norm_num), htake, lastIndexDotSpace_replicate_a,
    if_neg (by norm_num)]

/-- Claim C7: the spec requires the transmitted text to be at most the
fixed maximum length 4096. On a 4097-character input with no sentence
boundary, the code appends "..." after the 4096-character cut and
transmits 4099 characters, exceeding the limit its own comment cites. -/
theorem SendTelegramMessage_transmitted (text : List Char) (attempt : Nat → AttemptOutcome) :
    (SendTelegramMessage text attempt).transmitted = truncateMessage text := rfl

/-- Claim C7: the spec requires the transmitted text to be at most the
fixed maximum length 4096. On a 4097-character input with no sentence
boundary, the code appends "..." after the 4096-character cut and
transmits 4099 characters, exceeding the limit its own comment cites. -/
theorem c7_transmitted_text_exceeds_limit :
    ((SendTelegramMessage (List.replicate 4097 'a')
        (fun _ => AttemptOutcome.response 200 true true)).transmitted).length = 4099 ∧
    4096 < ((SendTelegramMessage (List.replicate 4097 'a')
        (fun _ => AttemptOutcome.response 200 true true)).transmitted).length := by
  rw [SendTelegramMessage_transmitted, truncateMessage_replicate_a, List.length_append,
    List.length_replicate]
  norm_num [List.length_cons, List.length_nil]

/-- The observable state of one per-feed goroutine spawned by
`startTickerForFeed` (internal/scheduler.go): which feed it polls, whether
its own ticker is still running (stopping a ticker silences it without
waking the goroutine), and whether the goroutine has returned. The select
loop returns only by observing the shared context's Done channel. -/
structure TaskState where
  feedUrl : String
  tickerActive : Bool
  exited : Bool
deriving DecidableEq

/-- Scheduler state: the cancellation flag of the context created once by
`NewFeedScheduler` (internal/scheduler.go) and never re-created, plus
every goroutine ever spawned, oldest first. The `tickers` registry is
represented through the per-task `tickerActive` flags: every live ticker
is reachable from the registry, and `Start` stops them all. -/
structure FeedScheduler where
  ctxCancelled : Bool
  tasks : List TaskState
deriving DecidableEq

/-- Observable scheduler actions: the synchronous initial fetch `Start`
performs per feed, and a timer-driven poll processed on a ticker tick. -/
inductive SchedEvent where
  | initialPoll (url : String)
  | tickPoll (url : String)
deriving DecidableEq

/-- Whether an event is a timer-driven poll. -/
def SchedEvent.isTick : SchedEvent → Bool
  | .initialPoll _ => false
  | .tickPoll _ => true

/-- `NewFeedScheduler` (internal/scheduler.go): fresh cancellable context,
no tickers, no goroutines. -/
def NewFeedScheduler : FeedScheduler := ⟨false, []⟩

/-- `Start` (internal/scheduler.go): under the mutex, stop and discard
every ticker in the registry — the goroutines owning them are not
cancelled and keep blocking on their now-silent tickers — then run one
synchronous `fetchAndProcessFeed` per configured feed and arm a fresh
ticker plus goroutine per feed. The shared context is left untouched. -/
def FeedScheduler.Start (fs : FeedScheduler) (feeds : List Feed) :
    FeedScheduler × List SchedEvent :=
  (⟨fs.ctxCancelled,
    fs.tasks.map (fun t => ⟨t.feedUrl, false, t.exited⟩)
      ++ feeds.map (fun f => ⟨f.FeedUrl, true, false⟩)⟩,
   feeds.map (fun f => .initialPoll f.FeedUrl))

/-- `Stop` (internal/scheduler.go): cancel the shared context, stop every
ticker, and `wg.Wait()` until every goroutine has observed cancellation
and returned. -/
def FeedScheduler.Stop (fs : FeedScheduler) : FeedScheduler :=
  ⟨true, fs.tasks.map (fun t => ⟨t.feedUrl, false, true⟩)⟩

/-- `RefreshConfiguration` (internal/scheduler.go): its body is exactly
`fs.Start()` on the (new) configuration. -/
def FeedScheduler.RefreshConfiguration (fs : FeedScheduler) (feeds : List Feed) :
    FeedScheduler × List SchedEvent :=
  FeedScheduler.Start fs feeds

/-- One turn of goroutine `i`'s select loop (`startTickerForFeed`,
internal/scheduler.go), with cancellation observed at the suspension point
(the cooperative-cancellation model of the select on `ctx.Done()`): an
exited goroutine does nothing; one that sees the cancelled context returns
without polling; otherwise a tick of its live ticker drives one poll, and
a goroutine whose ticker was stopped stays blocked forever. -/
def FeedScheduler.tickTask (fs : FeedScheduler) (i : Nat) :
    FeedScheduler × List SchedEvent :=
  match fs.tasks.get? i with
  | none => (fs, [])
  | some t =>
    if t.exited then (fs, [])
    else if fs.ctxCancelled then
      (⟨fs.ctxCancelled, fs.tasks.set i ⟨t.feedUrl, t.tickerActive, true⟩⟩, [])
    else if t.tickerActive then (fs, [.tickPoll t.feedUrl])
    else (fs, [])

/-- The operations that can hit a scheduler after construction. -/
inductive SchedOp where
  | start (feeds : List Feed)
  | stop
  | refresh (feeds : List Feed)
  | tick (i : Nat)

/-- Dispatch one scheduler operation. -/
def schedStep (fs : FeedScheduler) : SchedOp → FeedScheduler × List SchedEvent
  | .start feeds => fs.Start feeds
  | .stop => (fs.Stop, [])
  | .refresh feeds => fs.RefreshConfiguration feeds
  | .tick i => fs.tickTask i

/-- Run a sequence of scheduler operations, collecting emitted events. -/
def schedExec : FeedScheduler → List SchedOp → FeedScheduler × List SchedEvent
  | fs, [] => (fs, [])
  | fs, op :: ops =>
    ((schedExec (schedStep fs op).1 ops).1,
     (schedStep fs op).2 ++ (schedExec (schedStep fs op).1 ops).2)

/-- Claim C4: RefreshConfiguration is supposed to act as Stop followed by
Start — every task of the previous epoch exited before new timers are
armed. Its body is just `Start()`: after Start-then-Refresh on a one-feed
configuration the first-epoch goroutine is still not exited (its ticker is
silenced and the context is not cancelled, so it is stranded forever),
whereas after explicit Stop-then-Start it has exited; the two resulting
states differ. -/
theorem c4_refresh_leaves_stranded_task :
    (((NewFeedScheduler.Start [feedS1]).1.RefreshConfiguration [feedS1]).1).tasks
      = [⟨"s1", false, false⟩, ⟨"s1", true, false⟩] ∧
    ((((NewFeedScheduler.Start [feedS1]).1.Stop).Start [feedS1]).1).tasks
      = [⟨"s1", false, true⟩, ⟨"s1", true, false⟩] ∧
    ((NewFeedScheduler.Start [feedS1]).1.RefreshConfiguration [feedS1]).1
      ≠ (((NewFeedScheduler.Start [feedS1]).1.Stop).Start [feedS1]).1 := by
  refine ⟨rfl, rfl, by decide⟩

/-- After cancellation, one scheduler step keeps the context cancelled and
emits no timer-driven poll. -/
theorem schedStep_cancelled (fs : FeedScheduler) (op : SchedOp)
    (h : fs.ctxCancelled = true) :
    (schedStep fs op).1.ctxCancelled = true ∧
    ∀ e ∈ (schedStep fs op).2, e.isTick = false := by
  cases op with
  | start feeds =>
    refine ⟨h, fun e he => ?_⟩
    simp only [schedStep, FeedScheduler.Start, List.mem_map] at he
    obtain ⟨f, _, rfl⟩ := he
    rfl
  | stop => exact ⟨rfl, fun e he => by simp [schedStep] at he⟩
  | refresh feeds =>
    refine ⟨h, fun e he => ?_⟩
    simp only [schedStep, FeedScheduler.RefreshConfiguration, FeedScheduler.Start,
      List.mem_map] at he
    obtain ⟨f, _, rfl⟩ := he
    rfl
  | tick i =>
    unfold schedStep FeedScheduler.tickTask
    cases hget : fs.tasks[i]? with
    | none => simp [hget, h]
    | some t =>
      cases hex : t.exited with
      | true => simp [hget, hex, h]
      | false => simp [hget, hex, h]

/-- After cancellation, no sequence of scheduler operations ever emits a
timer-driven poll, and the context stays cancelled. -/
theorem schedExec_cancelled :
    ∀ (ops : List SchedOp) (fs : FeedScheduler), fs.ctxCancelled = true →
      (∀ e ∈ (schedExec fs ops).2, e.isTick = false) ∧
      (schedExec fs ops).1.ctxCancelled = true := by
  intro ops
  induction ops with
  | nil => exact fun fs h => ⟨fun e he => by simp [schedExec] at he, h⟩
  | cons op ops ih =>
    intro fs h
    have hstep := schedStep_cancelled fs op h
    have hrest := ih (schedStep fs op).1 hstep.1
    refine ⟨fun e he => ?_, ?_⟩
    · simp only [schedExec, List.mem_append] at he
      rcases he with he | he
      · exact hstep.2 e he
      · exact hrest.1 e he
    · simp only [schedExec]
      exact hrest.2

/-- Claim C10: once the shared context — created once at construction and
never re-created — is cancelled, it stays cancelled under every later
Start, Stop, Refresh or tick, and no timer-driven poll is ever emitted
again: every newly armed goroutine observes cancellation at its first
suspension point. A later Start still performs its synchronous initial
poll per configured feed. -/
theorem c10_stop_is_permanent (fs : FeedScheduler) (ops : List SchedOp) (feeds : List Feed)
    (h : fs.ctxCancelled = true) :
    (∀ e ∈ (schedExec fs ops).2, e.isTick = false) ∧
    (schedExec fs ops).1.ctxCancelled = true ∧
    (fs.Start feeds).2 = feeds.map (fun f => SchedEvent.initialPoll f.FeedUrl) := by
  have hexec := schedExec_cancelled ops fs h
  exact ⟨hexec.1, hexec.2, rfl⟩

/-- A scheduler that was started on feed "s1" and then stopped. -/
def stoppedSched : FeedScheduler := (NewFeedScheduler.Start [feedS1]).1.Stop

/-- Operations thrown at the stopped scheduler: a restart, ticks on every
goroutine, and a reconfiguration. -/
def opsAfterStop : List SchedOp :=
  [SchedOp.start [feedS1], SchedOp.tick 0, SchedOp.tick 1,
   SchedOp.refresh [feedS1], SchedOp.tick 2]

/-- Witness for C10: after stopping, restarting, ticking every goroutine
and reconfiguring, no timer-driven poll is emitted, the context is still
cancelled, and the restart still performed its initial poll of "s1". -/
theorem c10_stop_is_permanent_witness :
    ((schedExec stoppedSched opsAfterStop).2).all (fun e => !(SchedEvent.isTick e)) = true ∧
    (schedExec stoppedSched opsAfterStop).1.ctxCancelled = true ∧
    (stoppedSched.Start [feedS1]).2 = [SchedEvent.initialPoll "s1"] := by
  have h := c10_stop_is_permanent stoppedSched opsAfterStop [feedS1] rfl
  refine ⟨List.all_eq_true.mpr (fun e he => ?_), h.2.1, h.2.2⟩
  rw [h.1 e he]
  rfl
